import Mathlib

/-!
Verification of the copilot-api-proxy core against its natural-language
specification.  The Go source is shallowly embedded: times are `Int`
seconds, byte streams are `List Nat`, HTTP header maps are functions
`String → List String` over already-canonicalised MIME keys, and every
fallible operation returns `Except`/`Option`.  Network effects are
modelled by passing each call's observed result (the decoded response or
the error) as an explicit argument.
-/

namespace CopilotProxy

/-! ## Token exchange (pkg/copilot, `ExchangeGitHubToken`)

`ExchangeTokenResponse` mirrors the decoded JSON of the upstream token
endpoint: `{token, expires_at, refresh_in}`.  A successful call is any
HTTP 200 with decodable JSON, so the decoded fields are unconstrained
(in particular `token` may be the empty string); a failed call carries
no data.  The result of one `ExchangeGitHubToken` call is therefore
`Option ExchangeTokenResponse` (`none` = request/status/decode error). -/

structure ExchangeTokenResponse where
  token : String
  expiresAt : Int
  refreshIn : Int
  deriving DecidableEq, Repr

/-! ## TokenManager (pkg/copilot/token_manager.go)

The manager's mutable fields are `copilotToken` and `refreshesAt`
(guarded by the RWMutex in Go; lock-free here since the embedding is
sequential).  `githubToken` is fixed at construction. -/

structure TokenManager where
  githubToken : String
  copilotToken : String
  refreshesAt : Int
  deriving DecidableEq, Repr

/-- `GetToken`: returns the current token value (read under RLock in Go). -/
def getToken (tm : TokenManager) : String :=
  tm.copilotToken

/-- `refresh(ctx)`: runs the exchange and, on success, updates the state:
`copilotToken := resp.Token` and
`refreshesAt := now + (resp.RefreshIn − 60) seconds` (the Go code adds
`time.Duration(resp.RefreshIn-60) * time.Second` to `time.Now()`).  On an
exchange error it returns before touching any field.  `now` is the value
of `time.Now()` at the update, and `exchange` the observed result of the
`ExchangeGitHubToken` call. -/
def refresh (tm : TokenManager) (now : Int)
    (exchange : Option ExchangeTokenResponse) : Except Unit TokenManager :=
  match exchange with
  | none => .error ()
  | some resp =>
      .ok { tm with
              copilotToken := resp.token
              refreshesAt := now + (resp.refreshIn - 60) }

/-- One iteration of the body of `refreshTokenLoop` after the timer fires:
`refresh` is attempted; on error the loop merely logs, so the state is
whatever `refresh` left — the old state, since `refresh` returns before
writing anything on error. -/
def refreshStep (tm : TokenManager) (now : Int)
    (exchange : Option ExchangeTokenResponse) : TokenManager :=
  match refresh tm now exchange with
  | .ok tm' => tm'
  | .error _ => tm

/-- `NewTokenManager`: performs one synchronous `refresh`; construction
fails (returns no manager) when that fails.  Before the first refresh the
token field is the zero value `""`. -/
def newTokenManager (githubToken : String) (now : Int)
    (exchange : Option ExchangeTokenResponse) : Option TokenManager :=
  match refresh { githubToken := githubToken, copilotToken := "", refreshesAt := 0 }
      now exchange with
  | .ok tm => some tm
  | .error _ => none

/-- `time.Until(tm.refreshesAt)` as computed at the top of
`refreshTokenLoop`. -/
def timeUntilRefresh (tm : TokenManager) (now : Int) : Int :=
  tm.refreshesAt - now

/-- The real wait before the loop's next refresh attempt: Go's
`time.After(d)` fires immediately when `d ≤ 0`, so the effective wait is
`max (timeUntilRefresh tm now) 0`. -/
def waitBeforeNextAttempt (tm : TokenManager) (now : Int) : Int :=
  max (timeUntilRefresh tm now) 0

/-- A run of the background loop: each element of `evs` is one fired tick,
giving the time `now` at which `refresh` ran and the observed exchange
result. -/
def runRefreshes (tm : TokenManager)
    (evs : List (Int × Option ExchangeTokenResponse)) : TokenManager :=
  evs.foldl (fun s e => refreshStep s e.1 e.2) tm

/-- The token delivered by the last successful exchange of `evs`, or
`init` when none succeeded. -/
def lastExchangedToken (init : String)
    (evs : List (Int × Option ExchangeTokenResponse)) : String :=
  evs.foldl (fun acc e => match e.2 with
    | some r => r.token
    | none => acc) init

/-! ## Device-flow polling (pkg/copilot, `PollAccessToken`)

`PollAccessToken` computes `interval` once from the device-code response
and then loops: each iteration waits on `select { ctx.Done() |
time.After(interval) }`; when the timer wins it issues one POST to the
token endpoint.  A send error or a decode error is logged and the loop
continues; a decoded body with non-empty `error` continues unless the
error is `"expired_token"` (which aborts) — `"authorization_pending"`
and `"slow_down"` are both plain continues; a body with empty `error`
and non-empty `access_token` returns that token, and otherwise the loop
continues.  One loop iteration's observation is a `PollEvent`. -/

inductive PollEvent where
  | cancelled
  | sendFailure
  | decodeFailure
  | response (error : String) (accessToken : String)
  deriving DecidableEq, Repr

inductive PollOutcome where
  | success (token : String)
  | expiredErr
  | cancelErr
  | stillPolling
  deriving DecidableEq, Repr

/-- The decision one loop iteration makes from its observed event:
`some o` terminates the loop with outcome `o`, `none` continues. -/
def pollStep (ev : PollEvent) : Option PollOutcome :=
  match ev with
  | .cancelled => some .cancelErr
  | .sendFailure => none
  | .decodeFailure => none
  | .response e tok =>
      if e ≠ "" then
        if e = "authorization_pending" then none
        else if e = "expired_token" then some .expiredErr
        else none
      else if tok ≠ "" then some (.success tok)
      else none

/-- Number of poll POSTs the iteration issued: a cancellation wins the
`select` before any request is sent; every other event is observed only
after one request went out. -/
def pollRequests (ev : PollEvent) : Nat :=
  match ev with
  | .cancelled => 0
  | _ => 1

/-- The poll loop over a finite prefix of observed events, threading the
`interval` variable exactly as the Go loop does (no branch assigns to
it).  Returns the outcome — `stillPolling` when every event of the
prefix continued — together with the total number of requests issued and
the final value of `interval`. -/
def pollLoop (interval : Int) (evs : List PollEvent) :
    PollOutcome × Nat × Int :=
  match evs with
  | [] => (.stillPolling, 0, interval)
  | ev :: rest =>
      match pollStep ev with
      | some o => (o, pollRequests ev, interval)
      | none =>
          let r := pollLoop interval rest
          (r.1, pollRequests ev + r.2.1, r.2.2)

/-- `PollAccessToken` for a device-code response with poll interval
`interval`, observing `evs`. -/
def pollAccessToken (interval : Int) (evs : List PollEvent) :
    PollOutcome × Nat × Int :=
  pollLoop interval evs

/-! ## Forwarder (pkg/copilot/client.go, `Client.ForwardRequest`, as in
the revision that sets the full Copilot header block)

Header maps are functions from canonical MIME keys to value lists — the
Go server canonicalises inbound keys, and `Header.Set` canonicalises its
argument, so every key these definitions touch is already canonical. -/

def HeaderMap : Type := String → List String

/-- `http.Header.Clone`. -/
def cloneHeader (h : HeaderMap) : HeaderMap := h

/-- `http.Header.Set k v`: replaces all values stored under `k` by the
single value `v`. -/
def setHeader (h : HeaderMap) (k v : String) : HeaderMap :=
  fun k' => if k' = k then [v] else h k'

/-- The fixed upstream host `copilotAPIHost`. -/
def copilotAPIHost : String := "api.individual.githubcopilot.com"

structure InRequest where
  method : String
  path : String
  header : HeaderMap
  body : List Nat

structure UpstreamRequest where
  method : String
  url : String
  host : String
  header : HeaderMap
  body : List Nat

/-- The path-alias rewrite at the top of `ForwardRequest`. -/
def forwardPath (p : String) : String :=
  if p = "/v1/chat/completions" then "/chat/completions" else p

/-- `ForwardRequest`: rewrites the alias path, builds the target URL on
the fixed host, passes the inbound body through, clones the inbound
headers, then overrides `Host`, sets `Authorization: Bearer <token>`
with the token read from the manager at send time, and sets the fixed
client-identification headers. -/
def forwardRequest (tm : TokenManager) (req : InRequest) : UpstreamRequest :=
  let path := forwardPath req.path
  let targetURL := "https://" ++ copilotAPIHost ++ path
  let h0 := cloneHeader req.header
  let token := getToken tm
  let h1 := setHeader h0 "Authorization" ("Bearer " ++ token)
  let h2 := setHeader h1 "Editor-Version" "vscode/1.98.1"
  let h3 := setHeader h2 "Editor-Plugin-Version" "copilot-chat/0.26.7"
  let h4 := setHeader h3 "User-Agent" "GitHubCopilotChat/0.26.7"
  let h5 := setHeader h4 "X-Github-Api-Version" "2025-04-01"
  let h6 := setHeader h5 "Copilot-Integration-Id" "vscode-chat"
  let h7 := setHeader h6 "Openai-Intent" "conversation-panel"
  let h8 := setHeader h7 "X-Vscode-User-Agent-Library-Version" "electron-fetch"
  { method := req.method
    url := targetURL
    host := copilotAPIHost
    header := h8
    body := req.body }

/-! ## Routing (internal/server/handlers.go, `registerRoutes`)

The mux registers the exact patterns `/v1/models` and `/models` on
`modelsHandler` — which overwrites `r.URL.Path` with `"/models"` before
calling `ForwardRequest` — and `/` (everything else) on `proxyHandler`,
which leaves the path alone. -/

/-- The path `ForwardRequest` receives after mux dispatch and any
handler rewrite. -/
def routedPath (p : String) : String :=
  if p = "/v1/models" then "/models"
  else if p = "/models" then "/models"
  else p

/-- The upstream path an inbound path `p` ends up requesting. -/
def upstreamPath (p : String) : String :=
  forwardPath (routedPath p)

/-- The full upstream URL for inbound path `p`. -/
def upstreamURL (p : String) : String :=
  "https://" ++ copilotAPIHost ++ upstreamPath p

/-! ## Stream relay (pkg/httpstreaming, `StreamResponse`)

The destination (`http.ResponseWriter`) is modelled by the trace of
operations performed on it.  The upstream body is the sequence of chunks
successive `Read(buf)` calls deliver before EOF; each chunk's length is
bounded by the 32 KiB buffer.  Read/write errors cut the trace short in
Go; the claims concern error-free deliveries, so the model covers the
run that reaches EOF. -/

inductive RelayEvent where
  | addHeader (k v : String)
  | writeHeader (status : Nat)
  | write (chunk : List Nat)
  | flush
  deriving DecidableEq, Repr

/-- `32 * 1024`, the buffer handed to `Read`. -/
def relayChunkSize : Nat := 32 * 1024

/-- The header-copy loop: `Add` each value of each upstream header key. -/
def headerEvents (hs : List (String × List String)) : List RelayEvent :=
  hs.flatMap (fun kv => kv.2.map (fun v => RelayEvent.addHeader kv.1 v))

/-- The flush-capable body loop: each `Read` returning `n > 0` bytes is
followed by one `Write` of those bytes and one `Flush`; a read returning
`n = 0` without error performs nothing and the loop continues; EOF ends
the loop. -/
def streamBody (chunks : List (List Nat)) : List RelayEvent :=
  match chunks with
  | [] => []
  | c :: rest =>
      (if c = [] then [] else [RelayEvent.write c, RelayEvent.flush])
        ++ streamBody rest

/-- `StreamResponse`: copies every header value, writes the status, then
either runs the chunked flush loop (destination supports `http.Flusher`)
or falls back to one bulk `io.Copy` of the whole remaining body. -/
def streamResponse (flushSupported : Bool) (status : Nat)
    (hs : List (String × List String)) (chunks : List (List Nat)) :
    List RelayEvent :=
  headerEvents hs ++ RelayEvent.writeHeader status ::
    (if flushSupported then streamBody chunks
     else [RelayEvent.write chunks.flatten])

/-- The byte sequence a trace delivers: concatenation of its writes. -/
def writtenBytes (evs : List RelayEvent) : List Nat :=
  match evs with
  | [] => []
  | RelayEvent.write c :: rest => c ++ writtenBytes rest
  | _ :: rest => writtenBytes rest

/-- Every `write` in the trace is immediately followed by a `flush`. -/
def writesFlushed (evs : List RelayEvent) : Bool :=
  match evs with
  | [] => true
  | RelayEvent.write _ :: rest =>
      match rest with
      | RelayEvent.flush :: r2 => writesFlushed r2
      | _ => false
  | _ :: rest => writesFlushed rest

/-! ## Proxy handler (internal/server/handlers.go, `proxyHandler`)

`proxyHandler` reads the whole inbound body with `io.ReadAll` (a 500 and
early return on failure), restores it into the request, forwards, and
then: a `ForwardRequest` error yields a synthesized 502; a response with
status ≠ 200 has its body read whole (a read failure yields a
synthesized 502) and is replayed to the client with the original status
and bytes; a 200 response is handed to `StreamResponse`.

An upstream response is its status, its headers, the chunks its body
yields, and whether reading the body past those chunks fails instead of
reaching EOF. -/

structure UpstreamResp where
  statusCode : Nat
  header : List (String × List String)
  bodyChunks : List (List Nat)
  bodyReadFails : Bool
  deriving DecidableEq, Repr

/-- What the client connection observes from the handler. -/
inductive ClientResult where
  | httpError (status : Nat) (msg : String)
  | replay (status : Nat) (body : List Nat)
  | streamed (events : List RelayEvent)
  deriving DecidableEq, Repr

/-- `proxyHandler` on one request: `bodyRead` is the result of the
inbound `io.ReadAll`, and `upstreamOf` maps the forwarded body bytes to
the observed `ForwardRequest` outcome.  The second component records the
body bytes handed to `ForwardRequest`, `none` when no upstream call was
issued. -/
def proxyHandler (flushSupported : Bool)
    (bodyRead : Except Unit (List Nat))
    (upstreamOf : List Nat → Except Unit UpstreamResp) :
    ClientResult × Option (List Nat) :=
  match bodyRead with
  | .error _ => (.httpError 500 "Failed to read request body", none)
  | .ok bodyBytes =>
      match upstreamOf bodyBytes with
      | .error _ => (.httpError 502 "Failed to proxy request", some bodyBytes)
      | .ok resp =>
          if resp.statusCode ≠ 200 then
            if resp.bodyReadFails then
              (.httpError 502 "Failed to read upstream error response", some bodyBytes)
            else
              (.replay resp.statusCode resp.bodyChunks.flatten, some bodyBytes)
          else
            (.streamed (streamResponse flushSupported resp.statusCode
                resp.header resp.bodyChunks), some bodyBytes)

end CopilotProxy

namespace CopilotProxy

/-! ### Sanity checks on the TokenManager embedding -/

example :
    refreshStep { githubToken := "g", copilotToken := "a", refreshesAt := 7 } 100 none
      = { githubToken := "g", copilotToken := "a", refreshesAt := 7 } := by decide

example :
    refreshStep { githubToken := "g", copilotToken := "a", refreshesAt := 7 } 100
        (some { token := "b", expiresAt := 999, refreshIn := 1500 })
      = { githubToken := "g", copilotToken := "b", refreshesAt := 1540 } := by decide

/-! ### Helper lemmas about refresh runs -/

theorem refreshStep_none (tm : TokenManager) (now : Int) :
    refreshStep tm now none = tm := rfl

theorem getToken_refreshStep (s : TokenManager) (now : Int)
    (ex : Option ExchangeTokenResponse) :
    getToken (refreshStep s now ex)
      = match ex with
        | some r => r.token
        | none => getToken s := by
  cases ex <;> rfl

theorem getToken_runRefreshes (evs : List (Int × Option ExchangeTokenResponse))
    (s : TokenManager) :
    getToken (runRefreshes s evs) = lastExchangedToken (getToken s) evs := by
  induction evs generalizing s with
  | nil => rfl
  | cons e rest ih =>
      show getToken (runRefreshes (refreshStep s e.1 e.2) rest) = _
      rw [ih]
      cases h : e.2 with
      | none =>
          simp only [lastExchangedToken, List.foldl_cons, h, getToken_refreshStep]
      | some r =>
          simp only [lastExchangedToken, List.foldl_cons, h, getToken_refreshStep]

theorem lastExchangedToken_ne_empty (evs : List (Int × Option ExchangeTokenResponse))
    (init : String) (h1 : init ≠ "")
    (h2 : ∀ e ∈ evs, ∀ r, e.2 = some r → r.token ≠ "") :
    lastExchangedToken init evs ≠ "" := by
  induction evs generalizing init with
  | nil => exact h1
  | cons e rest ih =>
      cases h : e.2 with
      | none =>
          show lastExchangedToken (match e.2 with
            | some r => r.token
            | none => init) rest ≠ ""
          rw [h]
          exact ih init h1 (fun e' he' => h2 e' (List.mem_cons_of_mem _ he'))
      | some r =>
          show lastExchangedToken (match e.2 with
            | some r => r.token
            | none => init) rest ≠ ""
          rw [h]
          exact ih r.token (h2 e (List.mem_cons_self _ _) r h)
            (fun e' he' => h2 e' (List.mem_cons_of_mem _ he'))

theorem newTokenManager_some (gh : String) (now0 : Int)
    (resp0 : ExchangeTokenResponse) (tm : TokenManager)
    (hcon : newTokenManager gh now0 (some resp0) = some tm) :
    tm = { githubToken := gh, copilotToken := resp0.token,
           refreshesAt := now0 + (resp0.refreshIn - 60) } := by
  simpa [newTokenManager, refresh, eq_comm] using hcon

/-! ### C1 -/

/-- C1 counterexample: the code computes the refresh time from the
response's `refresh_in` field, not from `expires_at`.  With the exchange
performed at time 0 on a response carrying `expires_at = 100` and
`refresh_in = 1500`, the stored `refreshesAt` is `0 + (1500 − 60) =
1440`, which is neither `expiresAt − 60 = 40` nor strictly before
`expiresAt = 100`. -/
theorem c1_refresh_time_not_from_expiresAt :
    refresh { githubToken := "g", copilotToken := "", refreshesAt := 0 } 0
        (some { token := "t", expiresAt := 100, refreshIn := 1500 })
      = .ok { githubToken := "g", copilotToken := "t", refreshesAt := 1440 } ∧
    ¬ ((1440 : Int) = 100 - 60) ∧ ¬ ((1440 : Int) < 100) := by
  refine ⟨rfl, by decide, by decide⟩

/-- C1 (amended): after every successful exchange performed at time
`now`, the stored refresh time satisfies
`refreshesAt = now + (refresh_in − 60)` seconds — computed from the
response's `refresh_in`, not its `expires_at` — so `refreshesAt`
strictly precedes `now + refresh_in` (by exactly 60 seconds), and the
stored token is the response's token. -/
theorem c1_refresh_time_from_refreshIn (tm tm' : TokenManager) (now : Int)
    (resp : ExchangeTokenResponse)
    (h : refresh tm now (some resp) = .ok tm') :
    tm'.refreshesAt = now + (resp.refreshIn - 60) ∧
    tm'.refreshesAt < now + resp.refreshIn ∧
    tm'.copilotToken = resp.token := by
  simp only [refresh, Except.ok.injEq] at h
  subst h
  refine ⟨rfl, ?_, rfl⟩
  show now + (resp.refreshIn - 60) < now + resp.refreshIn
  omega

/-- Witness for `c1_refresh_time_from_refreshIn` at a concrete exchange. -/
theorem c1_refresh_time_from_refreshIn_witness :
    ({ githubToken := "g", copilotToken := "t", refreshesAt := 1440 } :
        TokenManager).refreshesAt = 0 + (1500 - 60) ∧
    ({ githubToken := "g", copilotToken := "t", refreshesAt := 1440 } :
        TokenManager).refreshesAt < 0 + 1500 ∧
    ({ githubToken := "g", copilotToken := "t", refreshesAt := 1440 } :
        TokenManager).copilotToken
      = ({ token := "t", expiresAt := 1800, refreshIn := 1500 } :
          ExchangeTokenResponse).token :=
  c1_refresh_time_from_refreshIn
    { githubToken := "g", copilotToken := "", refreshesAt := 0 }
    { githubToken := "g", copilotToken := "t", refreshesAt := 1440 }
    0 { token := "t", expiresAt := 1800, refreshIn := 1500 } rfl

/-! ### C2 -/

/-- C2 counterexample: a refresh failure leaves `refreshesAt` unchanged
and in the past, so the loop's recomputed `time.Until` is ≤ 0 and
`time.After` fires immediately: after the failed attempt at time 100 on
a manager whose tick was scheduled at 100, the effective wait before the
next attempt is 0 — the retry is immediate, not delayed to a later
scheduled tick. -/
theorem c2_retry_happens_immediately :
    refreshStep { githubToken := "g", copilotToken := "t", refreshesAt := 100 }
        100 none
      = { githubToken := "g", copilotToken := "t", refreshesAt := 100 } ∧
    waitBeforeNextAttempt
      (refreshStep { githubToken := "g", copilotToken := "t", refreshesAt := 100 }
        100 none) 100 = 0 := by
  exact ⟨rfl, by decide⟩

/-- C2 (amended): when a background refresh attempt fails at a time `now`
at or past the scheduled `refreshesAt`, the state — including
`refreshesAt` — is unchanged, so the loop's next computed wait is 0 and
the exchange is retried immediately, not at a later scheduled tick. -/
theorem c2_failed_refresh_retries_immediately (tm : TokenManager) (now : Int)
    (h : tm.refreshesAt ≤ now) :
    refreshStep tm now none = tm ∧
    waitBeforeNextAttempt (refreshStep tm now none) now = 0 := by
  refine ⟨rfl, ?_⟩
  simp only [refreshStep_none, waitBeforeNextAttempt, timeUntilRefresh]
  omega

/-- Witness for `c2_failed_refresh_retries_immediately` at a concrete
failed tick. -/
theorem c2_failed_refresh_retries_immediately_witness :
    refreshStep { githubToken := "g", copilotToken := "t", refreshesAt := 50 }
        80 none
      = { githubToken := "g", copilotToken := "t", refreshesAt := 50 } ∧
    waitBeforeNextAttempt
      (refreshStep { githubToken := "g", copilotToken := "t", refreshesAt := 50 }
        80 none) 80 = 0 :=
  c2_failed_refresh_retries_immediately
    { githubToken := "g", copilotToken := "t", refreshesAt := 50 } 80 (by decide)

/-! ### C3 -/

/-- C3 counterexample: `ExchangeGitHubToken` accepts any 200 response
with decodable JSON, so an exchange can succeed while carrying an empty
`token`; construction then succeeds and `GetToken` returns the empty
string — refuting the "never returns an empty string" clause. -/
theorem c3_empty_token_after_successful_construction :
    newTokenManager "g" 0 (some { token := "", expiresAt := 100, refreshIn := 100 })
      = some { githubToken := "g", copilotToken := "", refreshesAt := 40 } ∧
    getToken { githubToken := "g", copilotToken := "", refreshesAt := 40 } = "" := by
  exact ⟨rfl, rfl⟩

/-- C3 (amended): every failed refresh attempt leaves the manager's state
unchanged, and after any sequence of refresh attempts `GetToken` returns
the token of the last successful exchange (the initial one when none
since succeeded); it is non-empty provided every successful exchange —
the initial one included — carried a non-empty token. -/
theorem c3_getToken_last_successful (gh : String) (now0 : Int)
    (resp0 : ExchangeTokenResponse) (tm : TokenManager)
    (hcon : newTokenManager gh now0 (some resp0) = some tm)
    (evs : List (Int × Option ExchangeTokenResponse)) (now : Int) :
    refreshStep (runRefreshes tm evs) now none = runRefreshes tm evs ∧
    getToken (runRefreshes tm evs) = lastExchangedToken resp0.token evs ∧
    ((resp0.token ≠ "" ∧ ∀ e ∈ evs, ∀ r, e.2 = some r → r.token ≠ "") →
      getToken (runRefreshes tm evs) ≠ "") := by
  have htm := newTokenManager_some gh now0 resp0 tm hcon
  have hget : getToken (runRefreshes tm evs) = lastExchangedToken resp0.token evs := by
    rw [getToken_runRefreshes, htm]
    rfl
  refine ⟨refreshStep_none _ _, hget, ?_⟩
  rintro ⟨h1, h2⟩
  rw [hget]
  exact lastExchangedToken_ne_empty evs resp0.token h1 h2

/-- Witness for `c3_getToken_last_successful`: construction at time 0,
then one failed and one successful refresh. -/
theorem c3_getToken_last_successful_witness :
    refreshStep
      (runRefreshes { githubToken := "g", copilotToken := "a", refreshesAt := 1440 }
        [(2000, none), (2100, some { token := "b", expiresAt := 4000, refreshIn := 1500 })])
      2200 none
      = runRefreshes { githubToken := "g", copilotToken := "a", refreshesAt := 1440 }
        [(2000, none), (2100, some { token := "b", expiresAt := 4000, refreshIn := 1500 })] ∧
    getToken
      (runRefreshes { githubToken := "g", copilotToken := "a", refreshesAt := 1440 }
        [(2000, none), (2100, some { token := "b", expiresAt := 4000, refreshIn := 1500 })])
      = lastExchangedToken
          ({ token := "a", expiresAt := 1800, refreshIn := 1500 } :
            ExchangeTokenResponse).token
          [(2000, none), (2100, some { token := "b", expiresAt := 4000, refreshIn := 1500 })] ∧
    ((({ token := "a", expiresAt := 1800, refreshIn := 1500 } :
          ExchangeTokenResponse).token ≠ "" ∧
      ∀ e ∈ [((2000 : Int), (none : Option ExchangeTokenResponse)),
             (2100, some { token := "b", expiresAt := 4000, refreshIn := 1500 })],
        ∀ r, e.2 = some r → r.token ≠ "") →
      getToken
        (runRefreshes { githubToken := "g", copilotToken := "a", refreshesAt := 1440 }
          [(2000, none), (2100, some { token := "b", expiresAt := 4000, refreshIn := 1500 })])
        ≠ "") :=
  c3_getToken_last_successful "g" 0
    { token := "a", expiresAt := 1800, refreshIn := 1500 }
    { githubToken := "g", copilotToken := "a", refreshesAt := 1440 }
    rfl
    [(2000, none), (2100, some { token := "b", expiresAt := 4000, refreshIn := 1500 })]
    2200

/-! ### Helper lemmas about the poll loop -/

theorem pollLoop_cons_some (i : Int) (ev : PollEvent) (rest : List PollEvent)
    (o : PollOutcome) (h : pollStep ev = some o) :
    pollLoop i (ev :: rest) = (o, pollRequests ev, i) := by
  simp [pollLoop, h]

theorem pollLoop_cons_none (i : Int) (ev : PollEvent) (rest : List PollEvent)
    (h : pollStep ev = none) :
    pollLoop i (ev :: rest)
      = ((pollLoop i rest).1, pollRequests ev + (pollLoop i rest).2.1,
         (pollLoop i rest).2.2) := by
  simp [pollLoop, h]

theorem pollStep_eq_some_cancelErr (ev : PollEvent)
    (h : pollStep ev = some .cancelErr) : ev = .cancelled := by
  cases ev with
  | cancelled => rfl
  | sendFailure => simp [pollStep] at h
  | decodeFailure => simp [pollStep] at h
  | response e t =>
      simp only [pollStep] at h
      split at h
      · split at h
        · simp at h
        · split at h
          · simp at h
          · simp at h
      · split at h
        · simp at h
        · simp at h

theorem pollStep_eq_some_expiredErr (ev : PollEvent)
    (h : pollStep ev = some .expiredErr) :
    ∃ t, ev = .response "expired_token" t := by
  cases ev with
  | cancelled => simp [pollStep] at h
  | sendFailure => simp [pollStep] at h
  | decodeFailure => simp [pollStep] at h
  | response e t =>
      simp only [pollStep] at h
      split at h
      · split at h
        · simp at h
        · split at h
          · rename_i he
            exact ⟨t, by rw [he]⟩
          · simp at h
      · split at h
        · simp at h
        · simp at h

theorem pollLoop_cancelErr_mem (i : Int) (evs : List PollEvent)
    (h : (pollLoop i evs).1 = .cancelErr) : PollEvent.cancelled ∈ evs := by
  induction evs with
  | nil => simp [pollLoop] at h
  | cons ev rest ih =>
      cases hst : pollStep ev with
      | some o =>
          rw [pollLoop_cons_some i ev rest o hst] at h
          subst h
          exact (pollStep_eq_some_cancelErr ev hst) ▸ List.mem_cons_self _ _
      | none =>
          rw [pollLoop_cons_none i ev rest hst] at h
          exact List.mem_cons_of_mem _ (ih h)

theorem pollLoop_expiredErr_mem (i : Int) (evs : List PollEvent)
    (h : (pollLoop i evs).1 = .expiredErr) :
    ∃ t, PollEvent.response "expired_token" t ∈ evs := by
  induction evs with
  | nil => simp [pollLoop] at h
  | cons ev rest ih =>
      cases hst : pollStep ev with
      | some o =>
          rw [pollLoop_cons_some i ev rest o hst] at h
          subst h
          obtain ⟨t, ht⟩ := pollStep_eq_some_expiredErr ev hst
          exact ⟨t, ht ▸ List.mem_cons_self _ _⟩
      | none =>
          rw [pollLoop_cons_none i ev rest hst] at h
          obtain ⟨t, ht⟩ := ih h
          exact ⟨t, List.mem_cons_of_mem _ ht⟩

theorem pollLoop_interval_unchanged (i : Int) (evs : List PollEvent) :
    (pollLoop i evs).2.2 = i := by
  induction evs with
  | nil => rfl
  | cons ev rest ih =>
      cases hst : pollStep ev with
      | some o => rw [pollLoop_cons_some i ev rest o hst]
      | none => rw [pollLoop_cons_none i ev rest hst]; exact ih

/-! ### C4 -/

/-- C4: on the response sequence pending, pending, success the poll loop
issues exactly three requests and returns exactly one credential (the
loop stops at the first success); on an `expired_token` response it
terminates immediately with the expiry outcome after exactly one
request, whatever events would have followed. -/
theorem c4_poll_counts (i : Int) (tok : String) (htok : tok ≠ "") :
    pollAccessToken i
        [.response "authorization_pending" "", .response "authorization_pending" "",
         .response "" tok]
      = (.success tok, 3, i) ∧
    ∀ (rest : List PollEvent) (t : String),
      pollAccessToken i (.response "expired_token" t :: rest) = (.expiredErr, 1, i) := by
  constructor
  · simp [pollAccessToken, pollLoop, pollStep, pollRequests, htok]
  · intro rest t
    simp [pollAccessToken, pollLoop, pollStep, pollRequests]

/-- Witness for `c4_poll_counts` with the credential "tok". -/
theorem c4_poll_counts_witness :
    pollAccessToken 5
        [.response "authorization_pending" "", .response "authorization_pending" "",
         .response "" "tok"]
      = (.success "tok", 3, 5) ∧
    ∀ (rest : List PollEvent) (t : String),
      pollAccessToken 5 (.response "expired_token" t :: rest) = (.expiredErr, 1, 5) :=
  c4_poll_counts 5 "tok" (by decide)

/-! ### C9 -/

/-- C9: `PollAccessToken` can only fail through cancellation or an
`expired_token` response: a send failure, a decode failure, and any
other non-empty error value (`slow_down`, `access_denied`, or an unknown
value) all continue the loop; a cancellation outcome implies a
cancellation event occurred and an expiry outcome implies an
`expired_token` response occurred; and the poll interval is never
changed by any event. -/
theorem c9_poll_error_cases (e tok : String) (i : Int) (evs : List PollEvent)
    (he : e ≠ "") (hne : e ≠ "expired_token") :
    pollStep .sendFailure = none ∧
    pollStep .decodeFailure = none ∧
    pollStep (.response e tok) = none ∧
    ((pollLoop i evs).1 = .cancelErr → PollEvent.cancelled ∈ evs) ∧
    ((pollLoop i evs).1 = .expiredErr →
      ∃ t, PollEvent.response "expired_token" t ∈ evs) ∧
    (pollLoop i evs).2.2 = i := by
  refine ⟨rfl, rfl, ?_, pollLoop_cancelErr_mem i evs, pollLoop_expiredErr_mem i evs,
    pollLoop_interval_unchanged i evs⟩
  by_cases hp : e = "authorization_pending" <;> simp [pollStep, he, hne, hp]

/-- Witness for `c9_poll_error_cases` at the `slow_down` error on a
concrete event list. -/
theorem c9_poll_error_cases_witness :
    pollStep .sendFailure = none ∧
    pollStep .decodeFailure = none ∧
    pollStep (.response "slow_down" "") = none ∧
    ((pollLoop 5 [.sendFailure, .cancelled]).1 = .cancelErr →
      PollEvent.cancelled ∈ [PollEvent.sendFailure, PollEvent.cancelled]) ∧
    ((pollLoop 5 [.sendFailure, .cancelled]).1 = .expiredErr →
      ∃ t, PollEvent.response "expired_token" t
        ∈ [PollEvent.sendFailure, PollEvent.cancelled]) ∧
    (pollLoop 5 [.sendFailure, .cancelled]).2.2 = 5 :=
  c9_poll_error_cases "slow_down" "" 5 [.sendFailure, .cancelled]
    (by decide) (by decide)

/-! ### C5 -/

/-- C5 counterexample: the inbound path `/v1/models` is not forwarded
unchanged — `modelsHandler` rewrites it to `/models` before
`ForwardRequest` runs — although it is not the chat-completions alias
path either. -/
theorem c5_v1_models_also_rewritten :
    upstreamPath "/v1/models" = "/models" ∧
    "/models" ≠ "/v1/models" ∧
    "/v1/models" ≠ "/v1/chat/completions" := by
  exact ⟨rfl, by decide, by decide⟩

/-- C5 (amended): the proxy rewrites `/v1/chat/completions` to the
upstream alias `/chat/completions` and routes both `/v1/models` and
`/models` to the upstream path `/models`; every other inbound path is
forwarded to the fixed upstream host with the path unchanged. -/
theorem c5_path_forwarding (p : String)
    (h1 : p ≠ "/v1/chat/completions") (h2 : p ≠ "/v1/models")
    (h3 : p ≠ "/models") :
    upstreamPath p = p ∧
    upstreamPath "/v1/chat/completions" = "/chat/completions" ∧
    upstreamPath "/v1/models" = "/models" ∧
    upstreamPath "/models" = "/models" ∧
    upstreamURL p = "https://" ++ copilotAPIHost ++ p := by
  have hp : upstreamPath p = p := by
    simp [upstreamPath, routedPath, forwardPath, h1, h2, h3]
  exact ⟨hp, rfl, rfl, rfl, by rw [upstreamURL, hp]⟩

/-- Witness for `c5_path_forwarding` at the inbound path
`/v1/embeddings`. -/
theorem c5_path_forwarding_witness :
    upstreamPath "/v1/embeddings" = "/v1/embeddings" ∧
    upstreamPath "/v1/chat/completions" = "/chat/completions" ∧
    upstreamPath "/v1/models" = "/models" ∧
    upstreamPath "/models" = "/models" ∧
    upstreamURL "/v1/embeddings" = "https://" ++ copilotAPIHost ++ "/v1/embeddings" :=
  c5_path_forwarding "/v1/embeddings" (by decide) (by decide) (by decide)

/-! ### C8 -/

/-- C8: two inbound requests that differ only in their `Authorization`
header produce identical upstream requests, and the upstream request's
`Authorization` header is exactly `Bearer` followed by the manager's
current token — a client-supplied `Authorization` value never reaches
the upstream. -/
theorem c8_client_authorization_never_forwarded (tm : TokenManager)
    (r1 r2 : InRequest)
    (hm : r1.method = r2.method) (hp : r1.path = r2.path) (hb : r1.body = r2.body)
    (hh : ∀ k, k ≠ "Authorization" → r1.header k = r2.header k) :
    forwardRequest tm r1 = forwardRequest tm r2 ∧
    (forwardRequest tm r1).header "Authorization" = ["Bearer " ++ getToken tm] := by
  have hhdr : ∀ k, (forwardRequest tm r1).header k = (forwardRequest tm r2).header k := by
    intro k
    by_cases hk : k = "Authorization"
    · subst hk
      simp [forwardRequest, cloneHeader, setHeader]
    · simp only [forwardRequest, cloneHeader, setHeader]
      rw [hh k hk]
  have e1 : forwardRequest tm r1 =
      { method := r1.method
        url := "https://" ++ copilotAPIHost ++ forwardPath r1.path
        host := copilotAPIHost
        header := (forwardRequest tm r1).header
        body := r1.body } := rfl
  have e2 : forwardRequest tm r2 =
      { method := r2.method
        url := "https://" ++ copilotAPIHost ++ forwardPath r2.path
        host := copilotAPIHost
        header := (forwardRequest tm r2).header
        body := r2.body } := rfl
  refine ⟨?_, by simp [forwardRequest, cloneHeader, setHeader]⟩
  rw [e1, e2, hm, hp, hb, funext hhdr]

/-- Witness for `c8_client_authorization_never_forwarded`: a request
carrying a client `Authorization` header and one carrying none forward
identically. -/
theorem c8_client_authorization_never_forwarded_witness :
    forwardRequest { githubToken := "g", copilotToken := "tok", refreshesAt := 0 }
      { method := "POST", path := "/v1/chat/completions",
        header := fun k => if k = "Authorization" then ["Bearer client-secret"] else [],
        body := [1, 2, 3] }
      = forwardRequest { githubToken := "g", copilotToken := "tok", refreshesAt := 0 }
          { method := "POST", path := "/v1/chat/completions",
            header := fun _ => [], body := [1, 2, 3] } ∧
    (forwardRequest { githubToken := "g", copilotToken := "tok", refreshesAt := 0 }
      { method := "POST", path := "/v1/chat/completions",
        header := fun k => if k = "Authorization" then ["Bearer client-secret"] else [],
        body := [1, 2, 3] }).header "Authorization"
      = ["Bearer " ++ getToken { githubToken := "g", copilotToken := "tok", refreshesAt := 0 }] :=
  c8_client_authorization_never_forwarded
    { githubToken := "g", copilotToken := "tok", refreshesAt := 0 }
    { method := "POST", path := "/v1/chat/completions",
      header := fun k => if k = "Authorization" then ["Bearer client-secret"] else [],
      body := [1, 2, 3] }
    { method := "POST", path := "/v1/chat/completions",
      header := fun _ => [], body := [1, 2, 3] }
    rfl rfl rfl
    (fun k hk => by simp [if_neg hk])

/-! ### Helper lemmas about the stream relay -/

theorem writtenBytes_addHeader (k v : String) (rest : List RelayEvent) :
    writtenBytes (RelayEvent.addHeader k v :: rest) = writtenBytes rest := rfl

theorem writtenBytes_append (a b : List RelayEvent) :
    writtenBytes (a ++ b) = writtenBytes a ++ writtenBytes b := by
  induction a with
  | nil => rfl
  | cons ev rest ih =>
      cases ev <;> simp [writtenBytes, ih]

theorem writtenBytes_headerEvents (hs : List (String × List String)) :
    writtenBytes (headerEvents hs) = [] := by
  induction hs with
  | nil => rfl
  | cons kv rest ih =>
      have hmap : writtenBytes (kv.2.map (fun v => RelayEvent.addHeader kv.1 v)) = [] := by
        induction kv.2 with
        | nil => rfl
        | cons v vs ihv => simpa [writtenBytes] using ihv
      simp [headerEvents, writtenBytes_append] at ih ⊢
      exact ⟨hmap, ih⟩

theorem writtenBytes_streamBody (chunks : List (List Nat)) :
    writtenBytes (streamBody chunks) = chunks.flatten := by
  induction chunks with
  | nil => rfl
  | cons c rest ih =>
      by_cases hc : c = []
      · subst hc
        simpa [streamBody, writtenBytes] using ih
      · simp [streamBody, hc, writtenBytes, ih]

theorem writesFlushed_addHeader (k v : String) (rest : List RelayEvent) :
    writesFlushed (RelayEvent.addHeader k v :: rest) = writesFlushed rest := rfl

theorem writesFlushed_headerEvents (hs : List (String × List String))
    (rest : List RelayEvent) :
    writesFlushed (headerEvents hs ++ rest) = writesFlushed rest := by
  induction hs with
  | nil => rfl
  | cons kv hs' ih =>
      have hmap : ∀ vs : List String,
          writesFlushed ((vs.map (fun v => RelayEvent.addHeader kv.1 v))
              ++ (headerEvents hs' ++ rest))
            = writesFlushed (headerEvents hs' ++ rest) := by
        intro vs
        induction vs with
        | nil => rfl
        | cons v vs' ihv => simpa [writesFlushed] using ihv
      simpa [headerEvents, List.append_assoc] using (hmap kv.2).trans ih

theorem writesFlushed_streamBody (chunks : List (List Nat)) :
    writesFlushed (streamBody chunks) = true := by
  induction chunks with
  | nil => rfl
  | cons c rest ih =>
      by_cases hc : c = []
      · simpa [streamBody, hc] using ih
      · simpa [streamBody, hc, writesFlushed] using ih

theorem streamBody_write_mem (chunks : List (List Nat)) (c : List Nat)
    (h : RelayEvent.write c ∈ streamBody chunks) : c ∈ chunks ∧ c ≠ [] := by
  induction chunks with
  | nil => simp [streamBody] at h
  | cons c0 rest ih =>
      by_cases hc0 : c0 = []
      · rw [streamBody, if_pos hc0, List.nil_append] at h
        obtain ⟨hmem, hne⟩ := ih h
        exact ⟨List.mem_cons_of_mem _ hmem, hne⟩
      · rw [streamBody, if_neg hc0] at h
        simp only [List.cons_append, List.nil_append, List.mem_cons] at h
        rcases h with h | h | h
        · injection h with h'
          subst h'
          exact ⟨List.mem_cons_self _ _, hc0⟩
        · exact RelayEvent.noConfusion h
        · obtain ⟨hmem, hne⟩ := ih h
          exact ⟨List.mem_cons_of_mem _ hmem, hne⟩

theorem headerEvents_no_write (hs : List (String × List String)) (c : List Nat) :
    RelayEvent.write c ∉ headerEvents hs := by
  induction hs with
  | nil => simp [headerEvents]
  | cons kv hs' ih =>
      intro h
      rw [headerEvents, List.flatMap_cons, List.mem_append] at h
      rcases h with h | h
      · rw [List.mem_map] at h
        obtain ⟨v, _, hv⟩ := h
        exact RelayEvent.noConfusion hv
      · exact ih h

/-! ### C6 -/

/-- C6: the relay emits every upstream header value and then the status
before any body byte; across the whole trace the destination receives
exactly the upstream body's byte sequence in order; with a flush-capable
destination every write is a non-empty chunk of at most 32 KiB
immediately followed by a flush; without flush support the body goes out
as one bulk write. -/
theorem c6_stream_relay (fs : Bool) (status : Nat)
    (hs : List (String × List String)) (chunks : List (List Nat))
    (hc : ∀ c ∈ chunks, c.length ≤ relayChunkSize) :
    streamResponse fs status hs chunks
      = headerEvents hs ++ RelayEvent.writeHeader status ::
          (if fs then streamBody chunks else [RelayEvent.write chunks.flatten]) ∧
    writtenBytes (streamResponse fs status hs chunks) = chunks.flatten ∧
    (fs = true → writesFlushed (streamResponse fs status hs chunks) = true ∧
      ∀ c, RelayEvent.write c ∈ streamResponse fs status hs chunks →
        c ≠ [] ∧ c.length ≤ relayChunkSize) ∧
    (fs = false → streamResponse fs status hs chunks
      = headerEvents hs ++ [RelayEvent.writeHeader status,
          RelayEvent.write chunks.flatten]) := by
  refine ⟨rfl, ?_, ?_, ?_⟩
  · cases fs <;>
      simp [streamResponse, writtenBytes_append, writtenBytes_headerEvents,
        writtenBytes, writtenBytes_streamBody]
  · intro hfs
    subst hfs
    constructor
    · rw [streamResponse, if_pos rfl]
      rw [writesFlushed_headerEvents]
      show writesFlushed (streamBody chunks) = true
      exact writesFlushed_streamBody chunks
    · intro c hmem
      rw [streamResponse, if_pos rfl] at hmem
      rw [List.mem_append, List.mem_cons] at hmem
      rcases hmem with hmem | hmem | hmem
      · exact absurd hmem (headerEvents_no_write hs c)
      · exact RelayEvent.noConfusion hmem
      · obtain ⟨hin, hne⟩ := streamBody_write_mem chunks c hmem
        exact ⟨hne, hc c hin⟩
  · intro hfs
    subst hfs
    rfl

/-- Witness for `c6_stream_relay` on a concrete two-chunk body. -/
theorem c6_stream_relay_witness :
    streamResponse true 200 [("Content-Type", ["text/event-stream"])] [[1, 2], [3]]
      = headerEvents [("Content-Type", ["text/event-stream"])]
          ++ RelayEvent.writeHeader 200 ::
            (if true then streamBody [[1, 2], [3]]
             else [RelayEvent.write (List.flatten [[1, 2], [3]])]) ∧
    writtenBytes
        (streamResponse true 200 [("Content-Type", ["text/event-stream"])] [[1, 2], [3]])
      = List.flatten [[1, 2], [3]] ∧
    (true = true →
      writesFlushed
          (streamResponse true 200 [("Content-Type", ["text/event-stream"])] [[1, 2], [3]])
        = true ∧
      ∀ c, RelayEvent.write c
          ∈ streamResponse true 200 [("Content-Type", ["text/event-stream"])] [[1, 2], [3]] →
        c ≠ [] ∧ c.length ≤ relayChunkSize) ∧
    (true = false →
      streamResponse true 200 [("Content-Type", ["text/event-stream"])] [[1, 2], [3]]
        = headerEvents [("Content-Type", ["text/event-stream"])]
            ++ [RelayEvent.writeHeader 200, RelayEvent.write (List.flatten [[1, 2], [3]])]) :=
  c6_stream_relay true 200 [("Content-Type", ["text/event-stream"])] [[1, 2], [3]]
    (by decide)

/-! ### C7 -/

/-- C7 counterexample: a 404 upstream response whose body read fails is
not passed through — the handler synthesizes a proxy error with status
502 instead of the original 404. -/
theorem c7_unreadable_error_body_becomes_502 :
    proxyHandler false (.ok [7])
        (fun _ => .ok { statusCode := 404, header := [],
                        bodyChunks := [[1]], bodyReadFails := true })
      = (.httpError 502 "Failed to read upstream error response", some [7]) ∧
    (502 : Nat) ≠ 404 := by
  exact ⟨rfl, by decide⟩

/-- C7 (amended): every upstream response whose status is not a 2xx
success and whose body is read without error is delivered to the client
with the original upstream status code and the original body bytes
unchanged; only when reading the upstream body fails does the handler
synthesize a proxy error. -/
theorem c7_non2xx_passthrough (fs : Bool) (body : List Nat) (resp : UpstreamResp)
    (hst : ¬ (200 ≤ resp.statusCode ∧ resp.statusCode < 300))
    (hb : resp.bodyReadFails = false) :
    proxyHandler fs (.ok body) (fun _ => .ok resp)
      = (.replay resp.statusCode resp.bodyChunks.flatten, some body) := by
  have h200 : resp.statusCode ≠ 200 := fun h => hst (by omega)
  simp [proxyHandler, h200, hb]

/-- Witness for `c7_non2xx_passthrough` at a readable 404 response. -/
theorem c7_non2xx_passthrough_witness :
    proxyHandler false (.ok [7])
        (fun _ => .ok { statusCode := 404, header := [],
                        bodyChunks := [[9, 9]], bodyReadFails := false })
      = (.replay 404 [9, 9], some [7]) :=
  c7_non2xx_passthrough false [7]
    { statusCode := 404, header := [], bodyChunks := [[9, 9]], bodyReadFails := false }
    (by decide) rfl

/-! ### C10 -/

/-- C10: the handler reads the whole inbound body before any upstream
call — a failed read yields a 500 response and no upstream request;
otherwise, in every branch, the body bytes handed to `ForwardRequest`
are exactly the inbound body bytes. -/
theorem c10_body_read_before_upstream (fs : Bool)
    (upstreamOf : List Nat → Except Unit UpstreamResp) (body : List Nat) :
    proxyHandler fs (.error ()) upstreamOf
      = (.httpError 500 "Failed to read request body", none) ∧
    (proxyHandler fs (.ok body) upstreamOf).2 = some body := by
  refine ⟨rfl, ?_⟩
  simp only [proxyHandler]
  cases h : upstreamOf body with
  | error e => rfl
  | ok resp =>
      by_cases h200 : resp.statusCode = 200
      · simp [h200]
      · by_cases hbf : resp.bodyReadFails <;> simp [h200, hbf]

end CopilotProxy
